import Mathlib

/-!
Verification development for the omnilog structured-logging pipeline.

The TypeScript sources are shallowly embedded: JavaScript objects become an
inductive JSON value, object spread becomes an insertion-ordered association
map merge, mutable runtime state (rate-limit buckets, deprecation-warned
sets, drain queues) becomes explicit state threading, and thrown errors
become an error sum. Regular-expression PII detectors are kept as a
function parameter, so every theorem about the PII guard holds for every
detector semantics. Floating-point numbers are modelled by rationals; the
scenarios proved below only involve arithmetic that is exact in both.
-/

namespace Omnilog

/-- Field sensitivity tags, from the FieldTag union in types.ts. -/
inductive FieldTag where
  | pii
  | secret
  | token
  | sensitive
deriving DecidableEq, Repr

/-- Redaction modes, from the RedactionMode union in types.ts. -/
inductive RedactionMode where
  | strict
  | lenient
  | dev
deriving DecidableEq, Repr

/-- A tag-map entry value: a single tag or a list of tags
(FieldTag | readonly FieldTag[] in types.ts). -/
inductive TagVal where
  | one : FieldTag → TagVal
  | many : List FieldTag → TagVal
deriving DecidableEq, Repr

/-- TagMap: insertion-ordered map of dot-paths to tag values. -/
abbrev TagMap := List (String × TagVal)

/-- JSON-like values: the shape of payloads, contexts and envelopes after
JSON round-tripping. Numbers are modelled by integers; no claim below
involves a numeric leaf value. -/
inductive JsonValue where
  | str : String → JsonValue
  | num : Int → JsonValue
  | bool : Bool → JsonValue
  | null : JsonValue
  | arr : List JsonValue → JsonValue
  | obj : List (String × JsonValue) → JsonValue

/-- Character digits 0-9 rendered for array-index path segments. -/
def digitChar (n : Nat) : Char := Char.ofNat (48 + n)

/-- Decimal digits of a natural number, fuel-driven so the kernel can
evaluate it. -/
def natDigitsAux : Nat → Nat → List Char → List Char
  | 0, _, acc => acc
  | fuel + 1, n, acc =>
    if n < 10 then digitChar n :: acc
    else natDigitsAux fuel (n / 10) (digitChar (n % 10) :: acc)

/-- Decimal rendering of a natural number, as JavaScript renders array
indices into dot-paths. -/
def natToStr (n : Nat) : String := ⟨natDigitsAux (n + 1) n []⟩

/-- Digits-to-number accumulator for parsing canonical array indices. -/
def digitsToNat (cs : List Char) : Nat :=
  cs.foldl (fun acc c => acc * 10 + (c.toNat - 48)) 0

/-- Parse a string as a canonical JavaScript array index: non-empty, all
digits, and no leading zero (except the index 0 itself). Mirrors which
string keys exist as own properties of a JS array. -/
def parseArrayIndex (s : String) : Option Nat :=
  match s.data with
  | [] => none
  | c :: cs =>
    if (c :: cs).all Char.isDigit then
      if c = '0' ∧ cs ≠ [] then none else some (digitsToNat (c :: cs))
    else none

/-- Splitting a dot-path into segments, as JavaScript path.split yields
(empty string gives one empty segment). -/
def splitDotAux : List Char → List Char → List String
  | [], acc => [⟨acc.reverse⟩]
  | '.' :: rest, acc => (⟨acc.reverse⟩ : String) :: splitDotAux rest []
  | c :: rest, acc => splitDotAux rest (c :: acc)

/-- Split a dot-path string on dots. -/
def splitDot (s : String) : List String := splitDotAux s.data []

/-- Boolean list-prefix test over characters. -/
def charsPrefix : List Char → List Char → Bool
  | [], _ => true
  | _ :: _, [] => false
  | a :: as, b :: bs => a = b && charsPrefix as bs

/-- String startsWith, as used by the tag-path matcher. -/
def strStartsWith (s pre : String) : Bool := charsPrefix pre.data s.data

/-- Redaction placeholder per mode (redactionPatterns in redaction.ts). -/
def redactionPatterns : RedactionMode → String
  | .strict => "[REDACTED]"
  | .lenient => "[FILTERED]"
  | .dev => "[HIDDEN]"

/-- ShouldRedact from redaction.ts: decides whether a field carrying the
given tags is masked under the policy tag set and mode. An absent or
empty policy tag list disables redaction entirely; dev and lenient modes
then test the field tags against fixed tag subsets, while strict tests
them against the policy tag set. -/
def ShouldRedact (tags : List FieldTag) (policyTags : Option (List FieldTag))
    (mode : RedactionMode) : Bool :=
  match policyTags with
  | none => false
  | some pt =>
    if pt.isEmpty then false
    else
      match mode with
      | .dev => tags.any fun t => t = .secret ∨ t = .token
      | .lenient => tags.any fun t => t = .secret ∨ t = .token ∨ t = .sensitive
      | .strict => tags.any fun t => pt.contains t

/-- JavaScript key-in test on a JSON container: objects own their string
keys, arrays own their canonical numeric indices. -/
def jsonHasKey : JsonValue → String → Bool
  | .obj kvs, k => kvs.any fun e => e.1 = k
  | .arr xs, k =>
    match parseArrayIndex k with
    | some i => i < xs.length
    | none => false
  | _, _ => false

/-- JavaScript property read on a JSON container. -/
def jsonGet : JsonValue → String → Option JsonValue
  | .obj kvs, k => (kvs.find? fun e => e.1 = k).map fun e => e.2
  | .arr xs, k =>
    match parseArrayIndex k with
    | some i => xs.get? i
    | none => none
  | _, _ => none

/-- Replace the value of the first binding of a key in an association
list, keeping its position; used by the functional JSON property write. -/
def assocReplace (kvs : List (String × JsonValue)) (k : String) (v : JsonValue) :
    List (String × JsonValue) :=
  match kvs with
  | [] => []
  | e :: rest => if e.1 = k then (k, v) :: rest else e :: assocReplace rest k v

/-- JavaScript property write on a JSON container, for keys the container
owns (the redaction walk checks ownership before writing). -/
def jsonUpdate : JsonValue → String → JsonValue → JsonValue
  | .obj kvs, k, v => .obj (assocReplace kvs k v)
  | .arr xs, k, v =>
    match parseArrayIndex k with
    | some i => .arr (xs.set i v)
    | none => .arr xs
  | t, _, _ => t

/-- Which values the redaction walk will step into: a key whose value is
not an object or array stops the walk (the source returns on a falsy or
non-object intermediate; null is falsy). -/
def jsonIsContainer : JsonValue → Bool
  | .obj _ => true
  | .arr _ => true
  | _ => false

/-- SetPathValue from redaction.ts, functionally: walk the path through
the copy, give up silently if a segment is empty, missing, or lands on a
non-container before the last segment; write the value only when the
final container owns the last key. -/
def SetPathValue (target : JsonValue) (path : List String) (value : JsonValue) :
    JsonValue :=
  match path with
  | [] => target
  | [k] => if k = "" then target else if jsonHasKey target k then jsonUpdate target k value else target
  | k :: rest =>
    if k = "" then target
    else
      match jsonGet target k with
      | none => target
      | some next =>
        if jsonIsContainer next then jsonUpdate target k (SetPathValue next rest value)
        else target

/-- Nested read along a segment list, for stating where values sit in an
envelope or payload. -/
def jsonGetPath : JsonValue → List String → Option JsonValue
  | v, [] => some v
  | v, k :: rest =>
    match jsonGet v k with
    | none => none
    | some next => jsonGetPath next rest

/-- GetTagList from redaction.ts: a tag value as a list of tags. -/
def GetTagList : TagVal → List FieldTag
  | .one t => [t]
  | .many ts => ts

/-- ApplyRedaction from redaction.ts: deep-copy the data (the JSON
round-trip is the identity in this model), then overwrite every tag-map
path whose tags pass ShouldRedact with the mode placeholder. An absent
tag map returns the data unchanged. -/
def ApplyRedaction (data : JsonValue) (tags : Option TagMap) (mode : RedactionMode)
    (policyTags : Option (List FieldTag)) : JsonValue :=
  match tags with
  | none => data
  | some tagMap =>
    tagMap.foldl
      (fun result e =>
        if ShouldRedact (GetTagList e.2) policyTags mode then
          SetPathValue result (splitDot e.1) (.str (redactionPatterns mode))
        else result)
      data

/-- Default tag sets per mode from CreateRedactionPolicy in redaction.ts. -/
def defaultRedactTags : RedactionMode → List FieldTag
  | .strict => [.pii, .secret, .token, .sensitive]
  | .lenient => [.secret, .token]
  | .dev => [.secret, .token]

/-- A reusable redaction policy as returned by CreateRedactionPolicy. -/
structure RedactionPolicy where
  mode : RedactionMode
  tags : List FieldTag

/-- CreateRedactionPolicy from redaction.ts: bind a mode and an optional
custom tag list (defaulted per mode). -/
def CreateRedactionPolicy (mode : RedactionMode) (customTags : Option (List FieldTag)) :
    RedactionPolicy :=
  { mode := mode, tags := customTags.getD (defaultRedactTags mode) }

/-- Apply method of a CreateRedactionPolicy result. -/
def RedactionPolicy.Apply (p : RedactionPolicy) (data : JsonValue) (tags : Option TagMap) :
    JsonValue :=
  ApplyRedaction data tags p.mode (some p.tags)

/-- The tag-map paths that a redaction pass masks: exactly the entries
whose tag list passes ShouldRedact for the mode and policy tag set. -/
def maskedTagPaths (tags : TagMap) (mode : RedactionMode)
    (policyTags : Option (List FieldTag)) : List String :=
  (tags.filter fun e => ShouldRedact (GetTagList e.2) policyTags mode).map fun e => e.1

/-- PII detectors from pii-guard.ts. -/
inductive PiiDetector where
  | email
  | phone
  | creditCard
deriving DecidableEq, Repr

/-- PII guard modes consumed by the pipeline. -/
inductive PiiGuardMode where
  | warn
  | block
deriving DecidableEq, Repr

/-- PiiGuardConfig from types.ts. -/
structure PiiGuardConfig where
  mode : PiiGuardMode
  detectors : Option (List PiiDetector) := none
  requireTags : Option Bool := none

/-- One PII finding, from pii-guard.ts. -/
structure PiiFinding where
  path : String
  detector : PiiDetector
  valuePreview : String
  tagged : Bool
deriving DecidableEq, Repr

/-- NormalizeTags from pii-guard.ts: a tag value as a list of tags. In
the source this also drops non-string entries, which the typed tag map
cannot contain. -/
def NormalizeTags : TagVal → List FieldTag
  | .one t => [t]
  | .many ts => ts

/-- Whether a tag value carries at least one of the four sensitivity
tags, as tested inside IsTagged in pii-guard.ts. -/
def hasSensTag (tv : TagVal) : Bool :=
  (NormalizeTags tv).any fun t => t = .pii ∨ t = .sensitive ∨ t = .secret ∨ t = .token

/-- One scan step of the array-index normalization that pii-guard.ts
performs with a global regex replace of dot-digits segments: a dot
followed by digits and another dot (or end of string) collapses to a
single dot, and scanning resumes after the consumed characters. The fuel
argument strictly exceeds the number of remaining characters, so the
zero-fuel branch is never reached. -/
def normSegsAux : Nat → List Char → List Char
  | 0, _ => []
  | _ + 1, [] => []
  | fuel + 1, '.' :: rest =>
    let ds := rest.takeWhile Char.isDigit
    if ds.isEmpty then '.' :: normSegsAux fuel rest
    else
      match rest.dropWhile Char.isDigit with
      | [] => ['.']
      | '.' :: tail => '.' :: normSegsAux fuel tail
      | c :: tail => '.' :: (ds ++ normSegsAux fuel (c :: tail))
  | fuel + 1, c :: rest => c :: normSegsAux fuel rest

/-- Array-index normalization of a dot-path, as both occurrences of the
regex replace inside IsTagged compute it. -/
def normalizePath (s : String) : String := ⟨normSegsAux (s.data.length + 1) s.data⟩

/-- The path comparison made for each tag-map entry inside IsTagged in
pii-guard.ts: literal equality, literal dot-prefix, or equality or
dot-prefix after array-index normalization of both paths. -/
def TagPathMatches (tagPath payloadPath : String) : Bool :=
  payloadPath = tagPath ||
  strStartsWith payloadPath (tagPath ++ ".") ||
  normalizePath payloadPath = normalizePath tagPath ||
  strStartsWith (normalizePath payloadPath) (normalizePath tagPath ++ ".")

/-- IsTagged from pii-guard.ts: some tag-map entry matches the payload
path and carries a sensitivity tag. -/
def IsTagged (tags : Option TagMap) (payloadPath : String) : Bool :=
  match tags with
  | none => false
  | some tagMap => tagMap.any fun e => TagPathMatches e.1 payloadPath && hasSensTag e.2

/-- CreatePreview from pii-guard.ts (character counts; the claims below
only use ASCII values, where JavaScript UTF-16 length coincides). -/
def CreatePreview (value : String) : String :=
  if value.data.length ≤ 6 then "[REDACTED]"
  else (⟨value.data.take 3⟩ : String) ++ "***" ++ (⟨value.data.drop (value.data.length - 2)⟩ : String)

/-- The string-leaf step of VisitValue: the first enabled detector that
matches produces one finding; detector matching itself (the regular
expressions of pii-guard.ts) is the parameter mf, so every theorem below
holds for every matcher semantics. -/
def firstDetectorFinding (mf : String → PiiDetector → Bool) (detectors : List PiiDetector)
    (path : String) (value : String) (tagged : Bool) : List PiiFinding :=
  match detectors.find? fun d => mf value d with
  | some d => [⟨path, d, CreatePreview value, tagged⟩]
  | none => []

mutual

/-- VisitValue from pii-guard.ts: recursively visit every string leaf,
skipping leaves whose path is already governed by a sensitivity tag when
requireTags is set; array elements extend the path with their index,
object fields with their key. -/
def VisitValue (mf : String → PiiDetector → Bool) (detectors : List PiiDetector)
    (tags : Option TagMap) (requireTags : Bool) :
    JsonValue → String → List PiiFinding
  | .str s, path =>
    let tagged := IsTagged tags path
    if requireTags && tagged then []
    else firstDetectorFinding mf detectors path s tagged
  | .arr xs, path => VisitItems mf detectors tags requireTags xs 0 path
  | .obj kvs, path => VisitFields mf detectors tags requireTags kvs path
  | _, _ => []

/-- Array traversal of VisitValue, tracking element indices. -/
def VisitItems (mf : String → PiiDetector → Bool) (detectors : List PiiDetector)
    (tags : Option TagMap) (requireTags : Bool) :
    List JsonValue → Nat → String → List PiiFinding
  | [], _, _ => []
  | x :: rest, i, path =>
    VisitValue mf detectors tags requireTags x (path ++ "." ++ natToStr i) ++
      VisitItems mf detectors tags requireTags rest (i + 1) path

/-- Object traversal of VisitValue. -/
def VisitFields (mf : String → PiiDetector → Bool) (detectors : List PiiDetector)
    (tags : Option TagMap) (requireTags : Bool) :
    List (String × JsonValue) → String → List PiiFinding
  | [], _ => []
  | (k, v) :: rest, path =>
    VisitValue mf detectors tags requireTags v (path ++ "." ++ k) ++
      VisitFields mf detectors tags requireTags rest path

end

/-- DetectPii from pii-guard.ts: default detectors are all three, and
requireTags defaults to true; the scan starts at path payload. -/
def DetectPii (mf : String → PiiDetector → Bool) (payload : JsonValue)
    (tags : Option TagMap) (config : PiiGuardConfig) : List PiiFinding :=
  let detectors := config.detectors.getD [.email, .phone, .creditCard]
  let requireTags := config.requireTags.getD true
  VisitValue mf detectors tags requireTags payload "payload"

/-- The governed-path condition exactly as the claims word it: some
tag-map entry carries a sensitivity tag, and its path equals the leaf
path or is a dot-prefix of it after normalizing array-index segments
away. Stated from the claim text for comparison against IsTagged. -/
def claimGoverned (tags : TagMap) (p : String) : Bool :=
  tags.any fun e =>
    hasSensTag e.2 &&
    (normalizePath e.1 = normalizePath p ||
      strStartsWith (normalizePath p) (normalizePath e.1 ++ "."))

/-- Event kinds from types.ts. -/
inductive EventKind where
  | log
  | metric
  | span
deriving DecidableEq, Repr

/-- Log levels from types.ts. -/
inductive LogLevel where
  | trace
  | debug
  | info
  | warn
  | error
  | fatal
deriving DecidableEq, Repr

/-- A JavaScript object as an insertion-ordered association list with
unique keys (the operations below preserve uniqueness). -/
abbrev Obj := List (String × JsonValue)

/-- Property read on a context object. -/
def objGet (o : Obj) (k : String) : Option JsonValue :=
  (o.find? fun e => e.1 = k).map fun e => e.2

/-- Property write: overwrite in place if the key exists, append
otherwise; this is how object spread treats a repeated key. -/
def objSet (o : Obj) (k : String) (v : JsonValue) : Obj :=
  if o.any fun e => e.1 = k then assocReplace o k v else o ++ [(k, v)]

/-- Object spread merge: keys of the second object override and extend
the first, as spread syntax does in the logger. -/
def objMerge (a b : Obj) : Obj :=
  b.foldl (fun acc e => objSet acc e.1 e.2) a

/-- TraceContext from types.ts. -/
structure TraceContext where
  traceId : Option String := none
  spanId : Option String := none
  traceFlags : Option String := none
  traceparent : Option String := none

/-- Tracing options consumed by the logger: the GetTraceContext hook is
modelled by the value it returns when present, and MapTraceContext by an
optional remapping into a context fragment. -/
structure TracingOptions where
  injectTraceContext : Bool := false
  getTraceContext : Option (Option TraceContext) := none
  mapTraceContext : Option (TraceContext → Obj) := none

/-- Splitting on a separator character, for the traceparent format. -/
def splitCharAux (sep : Char) : List Char → List Char → List String
  | [], acc => [⟨acc.reverse⟩]
  | c :: rest, acc =>
    if c = sep then (⟨acc.reverse⟩ : String) :: splitCharAux sep rest []
    else splitCharAux sep rest (c :: acc)

/-- Hexadecimal digit test matching the traceparent character class. -/
def isHexDigit (c : Char) : Bool :=
  c.isDigit || ('a' ≤ c && c ≤ 'f') || ('A' ≤ c && c ≤ 'F')

/-- JavaScript String.trim over the characters of a string. -/
def strTrim (s : String) : String :=
  ⟨((s.data.dropWhile Char.isWhitespace).reverse.dropWhile Char.isWhitespace).reverse⟩

/-- Lower-casing as toLowerCase applies to hexadecimal identifiers. -/
def strToLower (s : String) : String := ⟨s.data.map Char.toLower⟩

/-- Whether a string is exactly n hexadecimal digits. -/
def isHexOfLength (s : String) (n : Nat) : Bool :=
  s.data.length = n && s.data.all isHexDigit

/-- ParseTraceParent from logger.ts: the trimmed string must be four
dash-separated hexadecimal groups of lengths 2, 32, 16 and 2; the trace
identifiers are lower-cased and the original string is kept. -/
def ParseTraceParent (traceparent : String) : Option TraceContext :=
  match splitCharAux '-' (strTrim traceparent).data [] with
  | [ver, tid, sid, flags] =>
    if isHexOfLength ver 2 && isHexOfLength tid 32 && isHexOfLength sid 16 &&
        isHexOfLength flags 2 then
      some { traceId := some (strToLower tid), spanId := some (strToLower sid),
             traceFlags := some (strToLower flags), traceparent := some traceparent }
    else none
  | _ => none

/-- Read a string-typed property of the context, as the typeof checks in
ResolveTraceContext do. -/
def strField (o : Obj) (k : String) : Option String :=
  match objGet o k with
  | some (.str s) => some s
  | _ => none

/-- JavaScript truthiness on an optional string: the empty string counts
as absent, as the source's truthiness checks make it. -/
def nonEmptyOpt : Option String → Option String
  | some "" => none
  | o => o

/-- ResolveTraceContext from logger.ts: a configured hook that returns a
value wins outright; otherwise trace fields come from string-typed
context properties, falling back to the parsed traceparent field by
field; an all-absent result is no trace context. -/
def ResolveTraceContext (tracing : TracingOptions) (context : Obj) : Option TraceContext :=
  match tracing.getTraceContext with
  | some (some tc) => some tc
  | _ =>
    let ctp := nonEmptyOpt (strField context "traceparent")
    let parsed := ctp.bind ParseTraceParent
    let tid := nonEmptyOpt (match strField context "traceId" with
      | some s => some s
      | none => parsed.bind fun p => p.traceId)
    let sid := nonEmptyOpt (match strField context "spanId" with
      | some s => some s
      | none => parsed.bind fun p => p.spanId)
    let flags := nonEmptyOpt (match strField context "traceFlags" with
      | some s => some s
      | none => parsed.bind fun p => p.traceFlags)
    if tid.isNone && sid.isNone && flags.isNone && ctp.isNone then none
    else some { traceId := tid, spanId := sid, traceFlags := flags, traceparent := ctp }

/-- A trace context spread onto a context object: only present fields
are merged. -/
def traceContextToObj (tc : TraceContext) : Obj :=
  (tc.traceId.map fun s => ("traceId", JsonValue.str s)).toList ++
  (tc.spanId.map fun s => ("spanId", JsonValue.str s)).toList ++
  (tc.traceFlags.map fun s => ("traceFlags", JsonValue.str s)).toList ++
  (tc.traceparent.map fun s => ("traceparent", JsonValue.str s)).toList

/-- ApplyTracingContext from logger.ts: no tracing configuration or no
injectTraceContext leaves the context unchanged; otherwise the resolved
trace context (optionally remapped) is merged over the context. -/
def ApplyTracingContext (tracing : Option TracingOptions) (context : Obj) : Obj :=
  match tracing with
  | none => context
  | some t =>
    if !t.injectTraceContext then context
    else
      match ResolveTraceContext t context with
      | none => context
      | some tc =>
        let mapped := match t.mapTraceContext with
          | some f => f tc
          | none => traceContextToObj tc
        objMerge context mapped

/-- The input handed to each context enricher. -/
structure EnricherInput where
  name : String
  kind : EventKind
  ts : String
  context : Obj
  payload : JsonValue
  level : Option LogLevel

/-- A context enricher: a fragment to merge, or nothing. An enricher
that throws is caught and logged by the source and contributes nothing,
so it is modelled by the none result. -/
abbrev Enricher := EnricherInput → Option Obj

/-- An event definition as the logger consumes it; the payload schema is
its safeParse capability (some validated data on success). -/
structure EventDef where
  name : String
  kind : EventKind
  schemaValidate : JsonValue → Option JsonValue
  fingerprint : String
  version : Option String := none
  level : Option LogLevel := none
  require : Option (List String) := none
  tags : Option TagMap := none
  deprecated : Bool := false
  deprecationMessage : Option String := none

/-- ApplyEnrichers from logger.ts: each enricher in registration order
receives the event shape and the context so far and merges its fragment;
an empty enricher list returns the context untouched. -/
def ApplyEnrichers (enrichers : List Enricher) (event : EventDef) (context : Obj)
    (payload : JsonValue) (ts : String) : Obj :=
  if enrichers.isEmpty then context
  else
    enrichers.foldl
      (fun ec enr =>
        match enr ⟨event.name, event.kind, ts, ec, payload, event.level⟩ with
        | none => ec
        | some frag => objMerge ec frag)
      context

/-- Behavior when a rate limit is exceeded, from types.ts. -/
inductive OnLimitBehavior where
  | drop
  | throw
deriving DecidableEq, Repr

/-- A per-event rate-limit rule from types.ts. -/
structure RateLimitRule where
  event : String
  burst : ℚ
  perSecond : ℚ

/-- Rate-limiting configuration from types.ts. -/
structure RateLimitConfig where
  rules : List RateLimitRule
  onLimit : Option OnLimitBehavior := none

/-- The input handed to a sampling rule predicate. -/
structure SamplingRuleInput where
  event : String
  kind : EventKind
  level : Option LogLevel
  context : JsonValue
  payload : JsonValue

/-- A sampling rule from types.ts. -/
structure SamplingRule where
  event : Option String := none
  kind : Option EventKind := none
  level : Option LogLevel := none
  rate : ℚ
  whenPred : Option (SamplingRuleInput → Bool) := none

/-- Sampling configuration from types.ts. -/
structure SamplingConfig where
  rate : Option ℚ := none
  adaptive : Option Bool := none
  rules : Option (List SamplingRule) := none

/-- The logging policy from types.ts. -/
structure Policy where
  redact : Option (List FieldTag) := none
  redactionMode : Option RedactionMode := none
  sample : Option SamplingConfig := none
  rateLimit : Option RateLimitConfig := none
  piiGuard : Option PiiGuardConfig := none

/-- A rate-limit token bucket from logger.ts. -/
structure RateBucket where
  tokens : ℚ
  lastRefillMs : Int

/-- The shared bucket map, keyed by event name. -/
abbrev Buckets := List (String × RateBucket)

/-- Bucket map read. -/
def bucketsGet (m : Buckets) (k : String) : Option RateBucket :=
  (m.find? fun e => e.1 = k).map fun e => e.2

/-- Bucket map replace-in-place for an existing key. -/
def bucketsReplace (m : Buckets) (k : String) (v : RateBucket) : Buckets :=
  match m with
  | [] => []
  | e :: rest => if e.1 = k then (k, v) :: rest else e :: bucketsReplace rest k v

/-- Bucket map write, with JavaScript Map.set semantics. -/
def bucketsSet (m : Buckets) (k : String) (v : RateBucket) : Buckets :=
  if m.any fun e => e.1 = k then bucketsReplace m k v else m ++ [(k, v)]

/-- Errors an Emit call can throw, one constructor per throw site of
logger.ts. -/
inductive EmitError where
  | unknownEvent (name : String)
  | invalidPayload (event : String)
  | piiGuardBlocked (event : String) (paths : List String)
  | invalidContext
  | missingRequiredContext (key : String) (event : String)
  | rateLimitExceeded (event : String)
deriving DecidableEq, Repr

/-- ShouldEmitWithinRateLimit from logger.ts: no configuration or no
matching rule always allows; otherwise refill the bucket by the elapsed
seconds times the refill rate, capped at the burst, consume one token if
at least one is available, and on exhaustion either throw (onLimit
throw) or deny. The bucket map is updated in every branch that reaches
the bucket. -/
def ShouldEmitWithinRateLimit (policy : Option Policy) (buckets : Buckets)
    (eventName : String) (nowMs : Int) : Except EmitError Bool × Buckets :=
  match policy.bind fun p => p.rateLimit with
  | none => (.ok true, buckets)
  | some cfg =>
    match cfg.rules.find? fun r => r.event = eventName with
    | none => (.ok true, buckets)
    | some rule =>
      let burst := max 1 rule.burst
      let refillRate := max 0 rule.perSecond
      let existing := (bucketsGet buckets eventName).getD ⟨burst, nowMs⟩
      let elapsedSeconds : ℚ := max 0 (((nowMs - existing.lastRefillMs : ℤ) : ℚ) / 1000)
      let refilled := min burst (existing.tokens + elapsedSeconds * refillRate)
      if refilled ≥ 1 then (.ok true, bucketsSet buckets eventName ⟨refilled - 1, nowMs⟩)
      else
        let buckets1 := bucketsSet buckets eventName ⟨refilled, nowMs⟩
        if cfg.onLimit = some .throw then (.error (.rateLimitExceeded eventName), buckets1)
        else (.ok false, buckets1)

/-- First matching sampling rule's rate, mirroring the continue chain of
ResolveSamplingRate in logger.ts. -/
def findSamplingRate (event : EventDef) (context : JsonValue) (payload : JsonValue) :
    List SamplingRule → Option ℚ
  | [] => none
  | rule :: rest =>
    let skip :=
      (match rule.event with
        | some e => decide (e ≠ event.name)
        | none => false) ||
      (match rule.kind with
        | some k => decide (k ≠ event.kind)
        | none => false) ||
      (match rule.level with
        | some l => decide (some l ≠ event.level)
        | none => false) ||
      (match rule.whenPred with
        | some w => !w ⟨event.name, event.kind, event.level, context, payload⟩
        | none => false)
    if skip then findSamplingRate event context payload rest else some rule.rate

/-- ResolveSamplingRate from logger.ts: base rate (default 1), first
matching rule overrides, adaptive sampling forces error and fatal events
to rate 1, and the result is clamped to the unit interval. -/
def ResolveSamplingRate (policy : Option Policy) (event : EventDef) (context : JsonValue)
    (payload : JsonValue) : ℚ :=
  match policy.bind fun p => p.sample with
  | none => 1
  | some cfg =>
    let base := cfg.rate.getD 1
    let resolved :=
      match cfg.rules with
      | none => base
      | some rules => (findSamplingRate event context payload rules).getD base
    let adapted :=
      if cfg.adaptive.getD false &&
          (event.level = some .error || event.level = some .fatal) then 1
      else resolved
    max 0 (min 1 adapted)

/-- ShouldSample from logger.ts: rates at least 1 always keep, rates at
most 0 always drop, otherwise the uniform draw decides. -/
def ShouldSample (policy : Option Policy) (event : EventDef) (context : JsonValue)
    (payload : JsonValue) (rand : ℚ) : Bool :=
  let rate := ResolveSamplingRate policy event context payload
  if rate ≥ 1 then true
  else if rate ≤ 0 then false
  else rand ≤ rate

/-- WarnDeprecation from logger.ts, on the shared warned set: a
deprecated event name is added (and the warning printed) only on its
first emission. -/
def WarnDeprecation (event : EventDef) (warned : List String) : List String :=
  if !event.deprecated then warned
  else if warned.contains event.name then warned
  else event.name :: warned

/-- EnsureRequiredContext from logger.ts, as the first required key that
is undefined on the validated context (the source throws on it). -/
def firstMissingRequiredKey (event : EventDef) (context : JsonValue) : Option String :=
  match event.require with
  | none => none
  | some keys => keys.find? fun k => (jsonGet context k).isNone

/-- Rendering of event kinds into envelope JSON. -/
def kindToStr : EventKind → String
  | .log => "log"
  | .metric => "metric"
  | .span => "span"

/-- Rendering of log levels into envelope JSON. -/
def levelToStr : LogLevel → String
  | .trace => "trace"
  | .debug => "debug"
  | .info => "info"
  | .warn => "warn"
  | .error => "error"
  | .fatal => "fatal"

/-- Rendering of field tags into envelope JSON. -/
def tagToStr : FieldTag → String
  | .pii => "pii"
  | .secret => "secret"
  | .token => "token"
  | .sensitive => "sensitive"

/-- Rendering of a tag value into envelope JSON. -/
def tagValToJson : TagVal → JsonValue
  | .one t => .str (tagToStr t)
  | .many ts => .arr (ts.map fun t => .str (tagToStr t))

/-- Rendering of a tag map into envelope JSON. -/
def tagMapToJson (tm : TagMap) : JsonValue :=
  .obj (tm.map fun e => (e.1, tagValToJson e.2))

/-- The envelope object EmitEvent assembles, with its keys in source
construction order and the optional fields present only when the event
defines them. -/
def buildEnvelope (event : EventDef) (ts : String) (context : JsonValue)
    (payload : JsonValue) : JsonValue :=
  .obj
    ([("kind", .str (kindToStr event.kind)), ("name", .str event.name),
      ("ts", .str ts),
      ("schema", .obj
        ([("fingerprint", .str event.fingerprint)] ++
          (match event.version with
            | some v => [("version", JsonValue.str v)]
            | none => []))),
      ("context", context), ("payload", payload)] ++
      (match event.level with
        | some l => [("level", JsonValue.str (levelToStr l))]
        | none => []) ++
      (match event.tags with
        | some tm => [("tags", tagMapToJson tm)]
        | none => []))

/-- The per-logger configuration EmitEvent closes over: policy,
enrichers, tracing, the registry context schema capability, and how many
sinks are registered. -/
structure LoggerSetup where
  policy : Option Policy := none
  enrichers : List Enricher := []
  tracing : Option TracingOptions := none
  contextValidate : JsonValue → Option JsonValue
  sinkCount : Nat := 1

/-- The mutable runtime state an Emit call reads and writes: the shared
rate-limit buckets and deprecation-warned set, plus the trace of
envelopes handed to sinks (one entry per sink invocation). -/
structure EmitState where
  buckets : Buckets := []
  warned : List String := []
  delivered : List JsonValue := []

/-- EmitEvent from logger.ts, stage for stage: payload validation,
deprecation warning, PII guard, ambient-plus-override context merge,
trace injection, enrichment, context validation, required-context check,
rate limiting, sampling, envelope construction, redaction, sink fan-out.
Mutations made before a throw (the warned set, the bucket map) survive
in the returned state, as they do on the shared runtime of the source. -/
def EmitEvent (mf : String → PiiDetector → Bool) (setup : LoggerSetup) (event : EventDef)
    (payload : JsonValue) (overrideContext : Option Obj) (ambient : Option Obj)
    (ts : String) (nowMs : Int) (rand : ℚ) (st : EmitState) :
    Except EmitError (Option JsonValue) × EmitState :=
  match event.schemaValidate payload with
  | none => (.error (.invalidPayload event.name), st)
  | some payloadData =>
    let st1 : EmitState := { st with warned := WarnDeprecation event st.warned }
    let guard := setup.policy.bind fun p => p.piiGuard
    let findings :=
      match guard with
      | none => []
      | some cfg => DetectPii mf payloadData event.tags cfg
    if !findings.isEmpty && (guard.map fun g => g.mode) = some .block then
      (.error (.piiGuardBlocked event.name (findings.map fun f => f.path)), st1)
    else
      let baseContext := ambient.getD []
      let mergedContext := objMerge baseContext (overrideContext.getD [])
      let tracedContext := ApplyTracingContext setup.tracing mergedContext
      let enrichedContext := ApplyEnrichers setup.enrichers event tracedContext payloadData ts
      match setup.contextValidate (.obj enrichedContext) with
      | none => (.error .invalidContext, st1)
      | some parsedContext =>
        match firstMissingRequiredKey event parsedContext with
        | some k => (.error (.missingRequiredContext k event.name), st1)
        | none =>
          match ShouldEmitWithinRateLimit setup.policy st1.buckets event.name nowMs with
          | (.error e, buckets1) => (.error e, { st1 with buckets := buckets1 })
          | (.ok allowed, buckets1) =>
            let st2 : EmitState := { st1 with buckets := buckets1 }
            if !allowed then (.ok none, st2)
            else if !ShouldSample setup.policy event parsedContext payloadData rand then
              (.ok none, st2)
            else
              let envelope := buildEnvelope event ts parsedContext payloadData
              let redacted := ApplyRedaction envelope event.tags
                ((setup.policy.bind fun p => p.redactionMode).getD .strict)
                (setup.policy.bind fun p => p.redact)
              (.ok (some redacted),
                { st2 with delivered := st2.delivered ++ List.replicate setup.sinkCount redacted })

/-- Emit from logger.ts: registry lookup by name, then EmitEvent. -/
def Emit (mf : String → PiiDetector → Bool) (setup : LoggerSetup) (events : List EventDef)
    (name : String) (payload : JsonValue) (overrideContext : Option Obj)
    (ambient : Option Obj) (ts : String) (nowMs : Int) (rand : ℚ) (st : EmitState) :
    Except EmitError (Option JsonValue) × EmitState :=
  match events.find? fun e => e.name = name with
  | none => (.error (.unknownEvent name), st)
  | some event => EmitEvent mf setup event payload overrideContext ambient ts nowMs rand st

/-- Heap of rate-limit bucket maps and deprecation-warned sets; the
JavaScript Map and Set objects that factory-spawned loggers may or may
not alias are modelled by indices into this store. -/
structure RuntimeStore where
  bucketMaps : List Buckets := []
  warnedSets : List (List String) := []

/-- Allocate a fresh empty bucket map (a new Map in the source). -/
def allocBucketMap (st : RuntimeStore) : Nat × RuntimeStore :=
  (st.bucketMaps.length, { st with bucketMaps := st.bucketMaps ++ [[]] })

/-- Allocate a fresh empty warned set (a new Set in the source). -/
def allocWarnedSet (st : RuntimeStore) : Nat × RuntimeStore :=
  (st.warnedSets.length, { st with warnedSets := st.warnedSets ++ [[]] })

/-- The runtime slots of LoggerOptions.runtime: optional references to a
shared bucket map and a shared warned set. -/
structure RuntimeRefs where
  rateLimitBuckets : Option Nat := none
  deprecationWarnings : Option Nat := none

/-- The references one logger instance holds after CreateLogger resolves
its runtime defaults (logger.ts lines 119 and 120): each absent slot
defaults to a freshly allocated, private map or set. -/
structure LoggerRefs where
  buckets : Nat
  warned : Nat

/-- The runtime-state resolution CreateLogger performs: take the bucket
map and warned set from options.runtime when given, allocate fresh ones
otherwise. -/
def CreateLoggerRefs (runtime : Option RuntimeRefs) (st : RuntimeStore) :
    LoggerRefs × RuntimeStore :=
  let resolvedBuckets :=
    match runtime.bind fun r => r.rateLimitBuckets with
    | some r => (r, st)
    | none => allocBucketMap st
  let resolvedWarned :=
    match runtime.bind fun r => r.deprecationWarnings with
    | some r => (r, resolvedBuckets.2)
    | none => allocWarnedSet resolvedBuckets.2
  ({ buckets := resolvedBuckets.1, warned := resolvedWarned.1 }, resolvedWarned.2)

/-- The runtime state OmniLogger.For builds once per factory and passes
to every CreateLogger call: both slots are resolved (defaulting to fresh
allocations) at factory-construction time, so all loggers of the factory
share them. -/
def OmniLoggerForRuntime (runtime : Option RuntimeRefs) (st : RuntimeStore) :
    RuntimeRefs × RuntimeStore :=
  let resolvedBuckets :=
    match runtime.bind fun r => r.rateLimitBuckets with
    | some r => (r, st)
    | none => allocBucketMap st
  let resolvedWarned :=
    match runtime.bind fun r => r.deprecationWarnings with
    | some r => (r, resolvedBuckets.2)
    | none => allocWarnedSet resolvedBuckets.2
  ({ rateLimitBuckets := some resolvedBuckets.1,
     deprecationWarnings := some resolvedWarned.1 }, resolvedWarned.2)

/-- TypedLogger.For (typed-logger.ts) passes its options object, runtime
slot included, unchanged to every CreateLogger call: this is the
reference resolution each of its Singleton and Scoped loggers performs. -/
def TypedLoggerForLoggerRefs (runtime : Option RuntimeRefs) (st : RuntimeStore) :
    LoggerRefs × RuntimeStore :=
  CreateLoggerRefs runtime st

/-- OmniLogger.For (omni-logger.ts): a logger created by Singleton or
Scoped resolves its references against the factory's shared runtime
state, in which both slots are present. -/
def OmniLoggerForLoggerRefs (sharedRuntime : RuntimeRefs) (st : RuntimeStore) :
    LoggerRefs × RuntimeStore :=
  CreateLoggerRefs (some sharedRuntime) st

/-- Bucket map read through a store reference. -/
def storeGetBuckets (st : RuntimeStore) (r : Nat) : Buckets :=
  (st.bucketMaps.get? r).getD []

/-- Bucket map write through a store reference. -/
def storeSetBuckets (st : RuntimeStore) (r : Nat) (m : Buckets) : RuntimeStore :=
  { st with bucketMaps := st.bucketMaps.set r m }

/-- Warned set read through a store reference. -/
def storeGetWarned (st : RuntimeStore) (r : Nat) : List String :=
  (st.warnedSets.get? r).getD []

/-- Warned set write through a store reference. -/
def storeSetWarned (st : RuntimeStore) (r : Nat) (w : List String) : RuntimeStore :=
  { st with warnedSets := st.warnedSets.set r w }

/-- Scenario state for emissions through factory-created loggers: the
shared-reference store plus the trace of envelopes that reached sinks. -/
structure FactoryScenarioState where
  store : RuntimeStore
  delivered : List JsonValue := []

/-- An Emit call performed by a logger holding the given references: its
bucket map and warned set are loaded from the store, the emission
pipeline runs, and both are written back through the same references. -/
def EmitThroughRefs (mf : String → PiiDetector → Bool) (setup : LoggerSetup)
    (refs : LoggerRefs) (event : EventDef) (payload : JsonValue)
    (overrideContext : Option Obj) (ambient : Option Obj) (ts : String) (nowMs : Int)
    (rand : ℚ) (s : FactoryScenarioState) :
    Except EmitError (Option JsonValue) × FactoryScenarioState :=
  let st : EmitState :=
    { buckets := storeGetBuckets s.store refs.buckets
      warned := storeGetWarned s.store refs.warned
      delivered := [] }
  let out := EmitEvent mf setup event payload overrideContext ambient ts nowMs rand st
  (out.1,
    { store := storeSetWarned (storeSetBuckets s.store refs.buckets out.2.buckets)
        refs.warned out.2.warned
      delivered := s.delivered ++ out.2.delivered })

/-- Retry jitter modes from types.ts. -/
inductive DrainJitter where
  | off
  | full
deriving DecidableEq, Repr

/-- Queue backpressure strategies from types.ts. -/
inductive DrainQueueStrategy where
  | dropOldest
  | dropNewest
  | block
  | sample
deriving DecidableEq, Repr

/-- Retry options handed to the BatchedDrain constructor. -/
structure DrainRetryOptions where
  maxAttempts : Option Nat := none
  baseDelayMs : Option Nat := none
  maxDelayMs : Option Nat := none
  jitter : Option DrainJitter := none
  perAttemptTimeoutMs : Option Nat := none

/-- Queue options handed to the BatchedDrain constructor. -/
structure DrainQueueOptions where
  maxItems : Option Nat := none
  strategy : Option DrainQueueStrategy := none
  sampleRate : Option ℚ := none

/-- The options subset the BatchedDrain constructor consumes; the
dead-letter sink is modelled by whether one is configured, with the
failures it receives recorded in the drain state. -/
structure DrainBatchOptions where
  batchSize : Option Nat := none
  flushInterval : Option Nat := none
  retry : Option DrainRetryOptions := none
  queue : Option DrainQueueOptions := none
  deadLetterConfigured : Bool := false

/-- The normalized settings the BatchedDrain constructor computes:
batch size at least 1 (default 100), bounded queue size at least 1 when
given, strategy defaulting to drop-newest, sample rate clamped to the
unit interval (default one half), and at least one attempt (default 3). -/
structure DrainSettings where
  batchSize : Nat
  flushInterval : Nat
  maxQueueSize : Option Nat
  queueStrategy : DrainQueueStrategy
  queueSampleRate : ℚ
  maxAttempts : Nat
  baseDelayMs : Nat
  maxDelayMs : Nat
  jitter : DrainJitter
  perAttemptTimeoutMs : Option Nat
  deadLetterConfigured : Bool

/-- The constructor normalization of BatchedDrain, default for default. -/
def mkDrainSettings (o : DrainBatchOptions) : DrainSettings :=
  { batchSize := max 1 (o.batchSize.getD 100)
    flushInterval := o.flushInterval.getD 5000
    maxQueueSize := (o.queue.bind fun q => q.maxItems).map (max 1)
    queueStrategy := (o.queue.bind fun q => q.strategy).getD .dropNewest
    queueSampleRate := min (max ((o.queue.bind fun q => q.sampleRate).getD (1 / 2)) 0) 1
    maxAttempts := max 1 ((o.retry.bind fun r => r.maxAttempts).getD 3)
    baseDelayMs := (o.retry.bind fun r => r.baseDelayMs).getD 100
    maxDelayMs := (o.retry.bind fun r => r.maxDelayMs).getD 3000
    jitter := (o.retry.bind fun r => r.jitter).getD .off
    perAttemptTimeoutMs := (o.retry.bind fun r => r.perAttemptTimeoutMs).map (max 1)
    deadLetterConfigured := o.deadLetterConfigured }

/-- A DrainFailure record from types.ts; the failedAt wall-clock
timestamp is outside the model. -/
structure DrainFailure (α : Type) where
  reason : String
  attempts : Nat
  events : List α
  errorMsg : Option String := none
deriving DecidableEq, Repr

/-- Observable state of one BatchedDrain instance: the queue, the
successfully delivered batches, the failures handed to the dead-letter
sink, every invocation of the underlying drain function, and the
telemetry reasons of dropped events. -/
structure DrainState (α : Type) where
  events : List α := []
  delivered : List (List α) := []
  deadLetters : List (DrainFailure α) := []
  drainCalls : List (List α) := []
  dropped : List String := []

/-- The attempt loop of SendWithRetry: attempts are numbered from 1,
each failed attempt before the last retries (after the backoff sleep,
which is time-only); the result is success together with the number of
drain invocations made. Structural recursion runs on the attempts still
allowed, which starts at maxAttempts and is at least 1 by construction,
so the zero branch is unreachable. -/
def SendWithRetryAux (deliver : Nat → List α → Bool) (batch : List α) :
    Nat → Nat → Bool × Nat
  | _, 0 => (false, 0)
  | attempt, remaining + 1 =>
    if deliver attempt batch then (true, attempt)
    else if remaining = 0 then (false, attempt)
    else SendWithRetryAux deliver batch (attempt + 1) remaining

/-- SendWithRetry from the drain engine, with the per-attempt outcome of
the underlying drain as a function of the attempt number. -/
def SendWithRetry (deliver : Nat → List α → Bool) (batch : List α) (maxAttempts : Nat) :
    Bool × Nat :=
  SendWithRetryAux deliver batch 1 maxAttempts

/-- PublishDeadLetter from the drain engine: with a configured
dead-letter sink, a failure record with reason delivery-failed and
attempts equal to the configured maxAttempts carries the identical
batch; without one, nothing is recorded. -/
def PublishDeadLetter (s : DrainSettings) (batch : List α) (st : DrainState α) :
    DrainState α :=
  if s.deadLetterConfigured then
    { st with deadLetters := st.deadLetters ++
        [{ reason := "delivery-failed", attempts := s.maxAttempts, events := batch }] }
  else st

/-- The while loop of Flush: slice up to batchSize events off the front
of the queue, deliver with retry, record the outcome (success, or
dead-letter on exhausted retries), and continue with the remaining
queue; a failed batch is neither re-enqueued nor does it abort the loop. -/
def FlushLoop (s : DrainSettings) (deliver : Nat → List α → Bool) :
    List α → DrainState α → DrainState α
  | [], st => st
  | e :: rest, st =>
    let batch := e :: rest.take (s.batchSize - 1)
    let remaining := rest.drop (s.batchSize - 1)
    let outcome := SendWithRetry deliver batch s.maxAttempts
    let st1 : DrainState α :=
      { st with drainCalls := st.drainCalls ++ List.replicate outcome.2 batch }
    let st2 : DrainState α :=
      if outcome.1 then { st1 with delivered := st1.delivered ++ [batch] }
      else PublishDeadLetter s batch st1
    FlushLoop s deliver remaining st2
termination_by events _ => events.length
decreasing_by
  simp only [List.length_cons, List.length_drop]
  omega

/-- Flush from the drain engine: drain the whole queue through the batch
loop (the flushing and pendingFlush flags serialize overlapping calls,
which the sequential model runs to completion in one pass). -/
def Flush (s : DrainSettings) (deliver : Nat → List α → Bool) (st : DrainState α) :
    DrainState α :=
  FlushLoop s deliver st.events { st with events := [] }

/-- ApplyBackpressure from the drain engine: with an unbounded queue or
a queue below its bound the event may be enqueued; at the bound,
drop-oldest evicts the head and admits, drop-newest rejects, sample
admits (evicting the head) when the draw stays within the sample rate
and rejects otherwise, and block suspends the producer (the none
result; no claim below exercises it). Every drop emits its telemetry
reason. -/
def ApplyBackpressure (s : DrainSettings) (rand : ℚ) (st : DrainState α) :
    Option Bool × DrainState α :=
  match s.maxQueueSize with
  | none => (some true, st)
  | some maxQ =>
    if st.events.length ≥ maxQ then
      match s.queueStrategy with
      | .dropOldest =>
        (some true, { st with events := st.events.tail, dropped := st.dropped ++ ["drop-oldest"] })
      | .dropNewest => (some false, { st with dropped := st.dropped ++ ["drop-newest"] })
      | .sample =>
        if rand ≤ s.queueSampleRate then
          (some true,
            { st with events := st.events.tail, dropped := st.dropped ++ ["sample-evict-oldest"] })
        else (some false, { st with dropped := st.dropped ++ ["sampled-out"] })
      | .block => (none, st)
    else (some true, st)

/-- Enqueue from the drain engine: push the event, then flush
immediately when the queue reaches the batch size, else arm the flush
timer (time-only, outside the model). -/
def Enqueue (s : DrainSettings) (deliver : Nat → List α → Bool) (event : α)
    (st : DrainState α) : DrainState α :=
  let st1 : DrainState α := { st with events := st.events ++ [event] }
  if st1.events.length ≥ s.batchSize then Flush s deliver st1 else st1

/-- Add from the drain engine: backpressure first, then enqueue when
admitted; a rejected event leaves the queue unchanged and a blocked
producer stays suspended. -/
def DrainAdd (s : DrainSettings) (deliver : Nat → List α → Bool) (rand : ℚ) (event : α)
    (st : DrainState α) : DrainState α :=
  match ApplyBackpressure s rand st with
  | (some true, st1) => Enqueue s deliver event st1
  | (_, st1) => st1

/-- The replay summary from types.ts. -/
structure ReplayResult where
  replayed : Nat
  failed : Nat
deriving DecidableEq, Repr

/-- The dead-letter file, modelled as the list of its newline-delimited
records: CreateDeadLetterFileSink appends one record per failure, and
ReadFailures parses them all back (the JSON round-trip is the identity
on records in this model). -/
def RecordFailure (file : List (DrainFailure α)) (f : DrainFailure α) :
    List (DrainFailure α) :=
  file ++ [f]

/-- ReadFailures from provider-otlp.ts, on the parsed-file model. -/
def ReadFailures (file : List (DrainFailure α)) : List (DrainFailure α) := file

/-- The inner loop of ReplayTo over one failure record: events are sent
through the sink in order (the sink's state threads through and the
Boolean is its success); the first sink throw stops this record, the
successes already made stay counted. The throttle sleep is time-only. -/
def ReplayEvents (sinkSend : α → σ → σ × Bool) : List α → σ → σ × Nat × Bool
  | [], s => (s, 0, false)
  | e :: rest, s =>
    let step := sinkSend e s
    if step.2 then
      let tail := ReplayEvents sinkSend rest step.1
      (tail.1, tail.2.1 + 1, tail.2.2)
    else (step.1, 0, true)

/-- ReplayTo from provider-otlp.ts: every recorded failure replays its
events through the sink; replayed counts successful event sends across
all records, failed counts one per record in which a send threw. -/
def ReplayTo (sinkSend : α → σ → σ × Bool) :
    List (DrainFailure α) → σ → σ × ReplayResult
  | [], s => (s, ⟨0, 0⟩)
  | failure :: rest, s =>
    let recordStep := ReplayEvents sinkSend failure.events s
    let tail := ReplayTo sinkSend rest recordStep.1
    (tail.1,
      ⟨recordStep.2.1 + tail.2.replayed,
        (if recordStep.2.2 then 1 else 0) + tail.2.failed⟩)

/-- A capturing sink: appends every envelope it receives and always
succeeds, as the capturing sink of the replay round-trip check. -/
def capturingSink (e : α) (captured : List α) : List α × Bool :=
  (captured ++ [e], true)

/-- A schema capability that accepts every value unchanged, standing in
for a permissive payload or context schema in concrete scenarios. -/
def passthroughValidate : JsonValue → Option JsonValue := fun v => some v

/-- A detector matcher for scenarios in which the PII guard is not
configured, so the matcher is never consulted. -/
def noMatch : String → PiiDetector → Bool := fun _ _ => false

/-- Scenario for the default-redaction claim: an event whose tag map
marks payload.email as pii. -/
def c1Event : EventDef :=
  { name := "user.login", kind := .log, schemaValidate := passthroughValidate,
    fingerprint := "fp1", tags := some [("payload.email", .one .pii)] }

/-- Logger setup whose policy configures neither a redact tag list nor a
redactionMode. -/
def c1Setup : LoggerSetup := { policy := some {}, contextValidate := passthroughValidate }

/-- A payload carrying a plainly sensitive value at the tagged path. -/
def c1Payload : JsonValue := .obj [("email", .str "user@example.com")]

/-- Timestamp constant for the default-redaction scenario. -/
def c1Ts : String := "2024-01-01T00:00:00.000Z"

/-- The Emit call of the default-redaction scenario. -/
def c1Run : Except EmitError (Option JsonValue) × EmitState :=
  EmitEvent noMatch c1Setup c1Event c1Payload none none c1Ts 0 0 {}

/-- The envelope that Emit call returns. -/
def c1Envelope : JsonValue := buildEnvelope c1Event c1Ts (.obj []) c1Payload

/-- Policy of the factory-sharing scenario: burst 1, no refill, default
onLimit, exactly as the shares-rate-limit-state test configures it. -/
def c2Policy : Policy :=
  { rateLimit := some { rules := [⟨"scoped.ratelimit", 1, 0⟩] } }

/-- Event of the factory-sharing scenario. -/
def c2Event : EventDef :=
  { name := "scoped.ratelimit", kind := .log, schemaValidate := passthroughValidate,
    fingerprint := "fp2" }

/-- Logger setup of the factory-sharing scenario. -/
def c2Setup : LoggerSetup :=
  { policy := some c2Policy, contextValidate := passthroughValidate }

/-- Payload of the factory-sharing scenario. -/
def c2Payload : JsonValue := .obj [("ok", .bool true)]

/-- Two emissions through a TypedLogger.For factory built without a
runtime option: the first logger (Singleton) and the second (Scoped)
each resolve their own references via CreateLogger, then each emits the
rate-limited event once, with no time passing. -/
def c2TypedRun : FactoryScenarioState :=
  let mk1 := TypedLoggerForLoggerRefs none {}
  let mk2 := TypedLoggerForLoggerRefs none mk1.2
  let s0 : FactoryScenarioState := { store := mk2.2 }
  let e1 := EmitThroughRefs noMatch c2Setup mk1.1 c2Event c2Payload none none c1Ts 0 0 s0
  (EmitThroughRefs noMatch c2Setup mk2.1 c2Event c2Payload none none c1Ts 0 0 e1.2).2

/-- The same two emissions through an OmniLogger.For factory built
without a runtime option: the factory resolves one shared runtime state
and hands it to both CreateLogger calls. -/
def c2OmniRun : FactoryScenarioState :=
  let rt := OmniLoggerForRuntime none {}
  let mk1 := OmniLoggerForLoggerRefs rt.1 rt.2
  let mk2 := OmniLoggerForLoggerRefs rt.1 mk1.2
  let s0 : FactoryScenarioState := { store := mk2.2 }
  let e1 := EmitThroughRefs noMatch c2Setup mk1.1 c2Event c2Payload none none c1Ts 0 0 s0
  (EmitThroughRefs noMatch c2Setup mk2.1 c2Event c2Payload none none c1Ts 0 0 e1.2).2

/-- Tag map declaring a tag at items.email, without an array index. -/
def c3Tags : TagMap := [("items.email", .one .pii)]

/-- Data whose matching value sits at items.0.email, inside an array. -/
def c3Data (v : String) : JsonValue :=
  .obj [("items", .arr [.obj [("email", .str v)]])]

/-- Event definition of the rate-limit boundary scenario, parameterized
by the event name. -/
def c4Event (name : String) : EventDef :=
  { name := name, kind := .log, schemaValidate := passthroughValidate, fingerprint := "fp4" }

/-- Policy of the rate-limit boundary scenario: burst 1, no refill,
default onLimit, for the given event name. -/
def c4Policy (name : String) : Policy :=
  { rateLimit := some { rules := [⟨name, 1, 0⟩] } }

/-- Logger setup of the rate-limit boundary scenario. -/
def c4Setup (name : String) : LoggerSetup :=
  { policy := some (c4Policy name), contextValidate := passthroughValidate }

/-- Drain settings of the retry-exhaustion scenario: two attempts and a
configured dead-letter sink, the rest defaulted. -/
def c5Settings : DrainSettings :=
  mkDrainSettings { retry := some { maxAttempts := some 2 }, deadLetterConfigured := true }

/-- Drain settings of the backpressure scenario: a queue bounded at two
items with the drop-oldest strategy, the rest defaulted. -/
def c6Settings : DrainSettings :=
  mkDrainSettings { queue := some { maxItems := some 2, strategy := some .dropOldest } }

/-- A delivery function that always succeeds, for the backpressure
scenario. -/
def alwaysDeliver : Nat → List String → Bool := fun _ _ => true

/-- The backpressure scenario: add the three events one, two, three in
order, then flush. -/
def c6Run : DrainState String :=
  Flush c6Settings alwaysDeliver
    (DrainAdd c6Settings alwaysDeliver 0 "three"
      (DrainAdd c6Settings alwaysDeliver 0 "two"
        (DrainAdd c6Settings alwaysDeliver 0 "one" {})))

/-- Data of the mode-monotonicity counterexample: one secret-tagged
field, with a policy tag set of pii only. -/
def c8Data : JsonValue := .obj [("password", .str "hunter2")]

/-- Tag map of the mode-monotonicity counterexample. -/
def c8Tags : TagMap := [("password", .one .secret)]

/-- Event of the required-context scenario: an event requiring traceId. -/
def c7Event : EventDef :=
  { name := "user.logged", kind := .log, schemaValidate := passthroughValidate,
    fingerprint := "fp7", require := some ["traceId"] }

/-- Logger setup of the required-context scenario: no policy, a
permissive context schema, one sink. -/
def c7Setup : LoggerSetup := { contextValidate := passthroughValidate }

/-- A detector matcher that flags every string, the harshest matcher for
exercising the PII guard. -/
def mfAll : String → PiiDetector → Bool := fun _ _ => true

/-- Tag map of the ancestor-governance scenario: a pii tag declared on
the items.email path under payload. -/
def c10Tags : TagMap := [("payload.items.email", .one .pii)]

/-- Payload of the ancestor-governance scenario: tagged email leaves
inside an array, plus one untagged string leaf. -/
def c10Payload : JsonValue :=
  .obj [("items", .arr [.obj [("email", .str "x@y.zz")], .obj [("email", .str "ok")]]),
    ("other", .str "plain@e.mail")]

/-- PII guard configuration of the ancestor-governance scenario, with
requireTags left to its default. -/
def c10Cfg : PiiGuardConfig := { mode := .warn }

/-- Claim C9: recording one DrainFailure holding one envelope and then
replaying the same file through a capturing sink redelivers exactly that
envelope once and reports one replayed, zero failed. -/
theorem replay_one_failure_round_trip {α : Type} (e : α) :
    ReplayTo capturingSink
      (ReadFailures (RecordFailure [] ⟨"delivery-failed", 2, [e], none⟩)) [] =
      ([e], ⟨1, 0⟩) := rfl

/-- Claim C6: with a queue bounded at two items under drop-oldest,
adding one, two, three in order and flushing delivers exactly the batch
[two, three]; the oldest event was evicted (with its telemetry reason)
on the third add, the delivery function ran once, and the queue is
empty. -/
theorem backpressure_drop_oldest_delivers_two_three :
    c6Run.delivered = [["two", "three"]] ∧ c6Run.drainCalls = [["two", "three"]] ∧
    c6Run.dropped = ["drop-oldest"] ∧ c6Run.events = [] := by
  simp [c6Run, c6Settings, mkDrainSettings, DrainAdd, ApplyBackpressure, Enqueue, Flush,
    FlushLoop, SendWithRetry, SendWithRetryAux, alwaysDeliver, PublishDeadLetter]

/-- Claim C5: flushing a single batch whose delivery fails on every
attempt, with two retry attempts and a configured dead-letter sink,
invokes the drain exactly twice on that batch, delivers nothing, hands
the dead-letter sink exactly one DrainFailure with attempts two and the
identical batch as its events, and leaves the queue empty (the batch is
not re-enqueued). -/
theorem retry_exhaustion_dead_letter {α : Type} (q : List α) (h1 : q ≠ [])
    (h2 : q.length ≤ 100) :
    Flush c5Settings (fun _ _ => false) { events := q } =
      { events := [], delivered := [],
        deadLetters := [⟨"delivery-failed", 2, q, none⟩],
        drainCalls := [q, q], dropped := [] } := by
  obtain ⟨e, rest, rfl⟩ := List.exists_cons_of_ne_nil h1
  have hrest : rest.length ≤ 99 := by simp at h2; omega
  have hbs : c5Settings.batchSize = 100 := rfl
  have hma : c5Settings.maxAttempts = 2 := rfl
  have hdl : c5Settings.deadLetterConfigured = true := rfl
  simp only [Flush, FlushLoop, hbs, hma, hdl]
  norm_num [List.take_of_length_le hrest, List.drop_eq_nil_of_le hrest,
    SendWithRetry, SendWithRetryAux, PublishDeadLetter, FlushLoop, hdl, hma,
    List.replicate_succ]

/-- Witness for claim C5 at the concrete batch [one]. -/
theorem retry_exhaustion_dead_letter_witness :
    (["one"] : List String) ≠ [] ∧ (["one"] : List String).length ≤ 100 ∧
    Flush c5Settings (fun _ _ => false) { events := ["one"] } =
      { events := [], delivered := [],
        deadLetters := [⟨"delivery-failed", 2, ["one"], none⟩],
        drainCalls := [["one"], ["one"]], dropped := [] } :=
  ⟨by decide, by decide, retry_exhaustion_dead_letter ["one"] (by decide) (by decide)⟩

/-- Counterexample to claim C8 as stated: with the policy tag set pii
only, the field tagged secret is masked under dev but untouched under
strict, so the dev-masked set is not contained in the strict-masked
set for every policy tag set. -/
theorem mode_monotonicity_counterexample :
    ApplyRedaction c8Data (some c8Tags) .dev (some [.pii]) =
      .obj [("password", .str "[HIDDEN]")] ∧
    ApplyRedaction c8Data (some c8Tags) .strict (some [.pii]) = c8Data :=
  ⟨rfl, rfl⟩

/-- Claim C8 as amended: for every data tag map and every policy tag set
containing secret, token and sensitive (in particular the default strict
set of CreateRedactionPolicy), the masked tag paths under dev are
contained in those under lenient, which are contained in those under
strict; ApplyRedaction masks exactly the tag-map entries selected by
ShouldRedact. -/
theorem redaction_mode_monotonicity_amended (tm : TagMap) (pt : List FieldTag)
    (hs : FieldTag.secret ∈ pt) (ht : FieldTag.token ∈ pt)
    (hv : FieldTag.sensitive ∈ pt) :
    maskedTagPaths tm .dev (some pt) ⊆ maskedTagPaths tm .lenient (some pt) ∧
    maskedTagPaths tm .lenient (some pt) ⊆ maskedTagPaths tm .strict (some pt) := by
  have hne : pt.isEmpty = false := by
    cases pt with
    | nil => simp at hs
    | cons a l => rfl
  have hdl : ∀ tags : List FieldTag, ShouldRedact tags (some pt) .dev = true →
      ShouldRedact tags (some pt) .lenient = true := by
    intro tags h
    simp only [ShouldRedact, hne, Bool.false_eq_true, if_false, List.any_eq_true,
      decide_eq_true_eq] at h ⊢
    obtain ⟨t, htm, hc⟩ := h
    exact ⟨t, htm, by tauto⟩
  have hls : ∀ tags : List FieldTag, ShouldRedact tags (some pt) .lenient = true →
      ShouldRedact tags (some pt) .strict = true := by
    intro tags h
    simp only [ShouldRedact, hne, Bool.false_eq_true, if_false, List.any_eq_true,
      decide_eq_true_eq] at h ⊢
    obtain ⟨t, htm, hc⟩ := h
    refine ⟨t, htm, ?_⟩
    have : t ∈ pt := by rcases hc with h1 | h1 | h1 <;> subst h1 <;> assumption
    simpa using this
  constructor
  · intro x hx
    simp only [maskedTagPaths, List.mem_map, List.mem_filter] at hx ⊢
    obtain ⟨en, ⟨hmem, hsr⟩, hpath⟩ := hx
    exact ⟨en, ⟨hmem, hdl _ hsr⟩, hpath⟩
  · intro x hx
    simp only [maskedTagPaths, List.mem_map, List.mem_filter] at hx ⊢
    obtain ⟨en, ⟨hmem, hsr⟩, hpath⟩ := hx
    exact ⟨en, ⟨hmem, hls _ hsr⟩, hpath⟩

/-- Witness for the amended claim C8 at the default strict tag set. -/
theorem redaction_mode_monotonicity_amended_witness :
    FieldTag.secret ∈ defaultRedactTags .strict ∧
    FieldTag.token ∈ defaultRedactTags .strict ∧
    FieldTag.sensitive ∈ defaultRedactTags .strict ∧
    (maskedTagPaths c8Tags .dev (some (defaultRedactTags .strict)) ⊆
        maskedTagPaths c8Tags .lenient (some (defaultRedactTags .strict)) ∧
      maskedTagPaths c8Tags .lenient (some (defaultRedactTags .strict)) ⊆
        maskedTagPaths c8Tags .strict (some (defaultRedactTags .strict))) :=
  ⟨by decide, by decide, by decide,
    redaction_mode_monotonicity_amended c8Tags (defaultRedactTags .strict)
      (by decide) (by decide) (by decide)⟩

/-- Counterexample to claim C3 as stated: for the tag declared at
items.email and the value at items.0.email, the PiiGuard treats the
path as tagged but ApplyRedaction leaves the data completely unchanged,
so the redaction engine does not normalize array indices away. -/
theorem redaction_index_normalization_counterexample :
    IsTagged (some c3Tags) "items.0.email" = true ∧
    ApplyRedaction (c3Data "alice@example.com") (some c3Tags) .strict (some [.pii]) =
      c3Data "alice@example.com" :=
  ⟨by decide, rfl⟩

/-- Claim C3 as amended: array-index normalization happens only in the
PiiGuard. IsTagged lets a tag at items.email govern items.0.email, but
ApplyRedaction follows tag paths literally: the tag at items.email masks
nothing in data shaped items.0.email, while a tag declared at the
literal path items.0.email does mask that value. -/
theorem redaction_index_normalization_amended (v : String) :
    IsTagged (some c3Tags) "items.0.email" = true ∧
    ApplyRedaction (c3Data v) (some c3Tags) .strict (some [.pii]) = c3Data v ∧
    jsonGetPath
      (ApplyRedaction (c3Data v) (some [("items.0.email", .one .pii)]) .strict
        (some [.pii]))
      ["items", "0", "email"] = some (.str "[REDACTED]") :=
  ⟨by decide, rfl, rfl⟩

/-- Claim C1 evaluated at its failing input: an Emit call under a policy
with no redact tag list and no redactionMode returns the envelope with
the pii-tagged field payload.email untouched (the undefined policy tag
list makes ShouldRedact decline every field), where the claim and the
ApplyRedaction documentation demand the [REDACTED] placeholder. -/
theorem default_policy_redaction_is_noop :
    c1Run.1 = .ok (some c1Envelope) ∧
    jsonGetPath c1Envelope ["payload", "email"] = some (.str "user@example.com") ∧
    c1Run.2.delivered = [c1Envelope] := by
  refine ⟨?_, rfl, ?_⟩ <;>
    norm_num [c1Run, c1Setup, c1Event, c1Payload, c1Ts, c1Envelope, EmitEvent,
      WarnDeprecation, ShouldEmitWithinRateLimit, ShouldSample, ResolveSamplingRate,
      ApplyEnrichers, ApplyTracingContext, objMerge, firstMissingRequiredKey,
      passthroughValidate, ApplyRedaction, ShouldRedact, buildEnvelope,
      List.replicate_succ]

/-- Claim C2 evaluated at its failing input: under the burst-one rule
shared quotas demand exactly one accepted emission across a factory's
loggers, and the OmniLogger.For factory delivers exactly one envelope;
but a TypedLogger.For factory built without a runtime option hands each
of its loggers a freshly allocated bucket map, so its two loggers both
emit and two envelopes reach the sink. -/
theorem factory_shared_rate_limit_state :
    c2TypedRun.delivered.length = 2 ∧ c2OmniRun.delivered.length = 1 := by
  constructor <;>
    norm_num [c2TypedRun, c2OmniRun, TypedLoggerForLoggerRefs, OmniLoggerForRuntime,
      OmniLoggerForLoggerRefs, CreateLoggerRefs, allocBucketMap, allocWarnedSet,
      EmitThroughRefs, storeGetBuckets, storeSetBuckets, storeGetWarned, storeSetWarned,
      EmitEvent, WarnDeprecation, ShouldEmitWithinRateLimit, bucketsGet, bucketsSet,
      bucketsReplace, ShouldSample, ResolveSamplingRate, ApplyEnrichers,
      ApplyTracingContext, objMerge, firstMissingRequiredKey, passthroughValidate,
      ApplyRedaction, c2Setup, c2Policy, c2Event, c2Payload, c1Ts, buildEnvelope,
      List.replicate_succ]
  all_goals simp

/-- Claim C4: under a burst-one zero-refill rule with the default
onLimit, two Emit calls for the event name in immediate succession (same
clock reading, same bucket map) produce exactly one accepted emission
that reaches the sink and one dropped emission with a null result, no
sink call, and no thrown error. -/
theorem rate_limit_burst_one_boundary (name ts : String) (nowMs : Int) (rand : ℚ)
    (payload : JsonValue) :
    (EmitEvent noMatch (c4Setup name) (c4Event name) payload none none ts nowMs rand
        {}).1 =
      .ok (some (buildEnvelope (c4Event name) ts (.obj []) payload)) ∧
    (EmitEvent noMatch (c4Setup name) (c4Event name) payload none none ts nowMs rand
        {}).2.delivered =
      [buildEnvelope (c4Event name) ts (.obj []) payload] ∧
    (EmitEvent noMatch (c4Setup name) (c4Event name) payload none none ts nowMs rand
        (EmitEvent noMatch (c4Setup name) (c4Event name) payload none none ts nowMs rand
          {}).2).1 = .ok none ∧
    (EmitEvent noMatch (c4Setup name) (c4Event name) payload none none ts nowMs rand
        (EmitEvent noMatch (c4Setup name) (c4Event name) payload none none ts nowMs rand
          {}).2).2.delivered =
      [buildEnvelope (c4Event name) ts (.obj []) payload] := by
  refine ⟨?_, ?_, ?_, ?_⟩ <;>
    norm_num [EmitEvent, c4Setup, c4Policy, c4Event, WarnDeprecation,
      ShouldEmitWithinRateLimit, bucketsGet, bucketsSet, bucketsReplace, ShouldSample,
      ResolveSamplingRate, ApplyEnrichers, ApplyTracingContext, objMerge,
      firstMissingRequiredKey, passthroughValidate, ApplyRedaction, buildEnvelope,
      List.replicate_succ, List.find?] <;>
    simp

/-- Witness for claim C4 at a concrete event name, clock and payload. -/
theorem rate_limit_burst_one_boundary_witness :
    (EmitEvent noMatch (c4Setup "rate.limited") (c4Event "rate.limited") (.obj [])
        none none c1Ts 5 0 {}).1 =
      .ok (some (buildEnvelope (c4Event "rate.limited") c1Ts (.obj []) (.obj []))) ∧
    (EmitEvent noMatch (c4Setup "rate.limited") (c4Event "rate.limited") (.obj [])
        none none c1Ts 5 0 {}).2.delivered =
      [buildEnvelope (c4Event "rate.limited") c1Ts (.obj []) (.obj [])] ∧
    (EmitEvent noMatch (c4Setup "rate.limited") (c4Event "rate.limited") (.obj [])
        none none c1Ts 5 0
        (EmitEvent noMatch (c4Setup "rate.limited") (c4Event "rate.limited") (.obj [])
          none none c1Ts 5 0 {}).2).1 = .ok none ∧
    (EmitEvent noMatch (c4Setup "rate.limited") (c4Event "rate.limited") (.obj [])
        none none c1Ts 5 0
        (EmitEvent noMatch (c4Setup "rate.limited") (c4Event "rate.limited") (.obj [])
          none none c1Ts 5 0 {}).2).2.delivered =
      [buildEnvelope (c4Event "rate.limited") c1Ts (.obj []) (.obj [])] :=
  rate_limit_burst_one_boundary "rate.limited" c1Ts 5 0 (.obj [])

/-- Claim C7: for an event requiring traceId, an Emit call that passes
payload validation and the PII guard but whose fully merged validated
context has no traceId value throws the missing-required-context error
naming the key and the event, and no envelope reaches any sink (only the
deprecation-warned set may have been touched). -/
theorem missing_required_context_rejects (mf : String → PiiDetector → Bool)
    (setup : LoggerSetup) (event : EventDef) (payload payloadData : JsonValue)
    (octx ambient : Option Obj) (ts : String) (nowMs : Int) (rand : ℚ) (st : EmitState)
    (parsedContext : JsonValue)
    (hreq : event.require = some ["traceId"])
    (hpay : event.schemaValidate payload = some payloadData)
    (hguard : setup.policy.bind (fun p => p.piiGuard) = none)
    (hctx : setup.contextValidate
        (.obj (ApplyEnrichers setup.enrichers event
          (ApplyTracingContext setup.tracing (objMerge (ambient.getD []) (octx.getD [])))
          payloadData ts)) = some parsedContext)
    (hmiss : jsonGet parsedContext "traceId" = none) :
    EmitEvent mf setup event payload octx ambient ts nowMs rand st =
      (.error (.missingRequiredContext "traceId" event.name),
        { st with warned := WarnDeprecation event st.warned }) := by
  simp only [EmitEvent, hpay, hguard, hctx, firstMissingRequiredKey, hreq]
  simp [List.find?, hmiss]

/-- Witness for claim C7: the concrete event requiring traceId, emitted
with an empty context. -/
theorem missing_required_context_rejects_witness :
    EmitEvent noMatch c7Setup c7Event (.obj []) none none c1Ts 0 0 {} =
      (.error (.missingRequiredContext "traceId" "user.logged"), {}) :=
  missing_required_context_rejects noMatch c7Setup c7Event (.obj []) (.obj [])
    none none c1Ts 0 0 {} (.obj []) rfl rfl rfl rfl rfl

/-- Every finding of the array traversal comes from visiting some
element at an index-extended path. -/
theorem mem_visitItems {mf : String → PiiDetector → Bool} {detectors : List PiiDetector}
    {tags : Option TagMap} {requireTags : Bool} :
    ∀ (xs : List JsonValue) (i : Nat) (path : String) (f : PiiFinding),
      f ∈ VisitItems mf detectors tags requireTags xs i path →
      ∃ x ∈ xs, ∃ j, f ∈ VisitValue mf detectors tags requireTags x
        (path ++ "." ++ natToStr j) := by
  intro xs
  induction xs with
  | nil => intro i path f hf; simp [VisitItems] at hf
  | cons x rest ih =>
    intro i path f hf
    simp only [VisitItems, List.mem_append] at hf
    rcases hf with h | h
    · exact ⟨x, List.mem_cons_self x rest, i, h⟩
    · obtain ⟨y, hy, j, hj⟩ := ih (i + 1) path f h
      exact ⟨y, List.mem_cons_of_mem x hy, j, hj⟩

/-- Every finding of the object traversal comes from visiting some
field's value at a key-extended path. -/
theorem mem_visitFields {mf : String → PiiDetector → Bool} {detectors : List PiiDetector}
    {tags : Option TagMap} {requireTags : Bool} :
    ∀ (kvs : List (String × JsonValue)) (path : String) (f : PiiFinding),
      f ∈ VisitFields mf detectors tags requireTags kvs path →
      ∃ kv ∈ kvs, f ∈ VisitValue mf detectors tags requireTags kv.2
        (path ++ "." ++ kv.1) := by
  intro kvs
  induction kvs with
  | nil => intro path f hf; simp [VisitFields] at hf
  | cons kv rest ih =>
    intro path f hf
    obtain ⟨k, v⟩ := kv
    simp only [VisitFields, List.mem_append] at hf
    rcases hf with h | h
    · exact ⟨(k, v), List.mem_cons_self (k, v) rest, h⟩
    · obtain ⟨kv2, hkv, hj⟩ := ih path f h
      exact ⟨kv2, List.mem_cons_of_mem (k, v) hkv, hj⟩

/-- With requireTags set, every finding the visitor produces sits at a
leaf path that IsTagged rejects: a tagged leaf is skipped before any
detector runs. Strong induction on the size of the visited value. -/
theorem visit_findings_not_tagged {mf : String → PiiDetector → Bool}
    {detectors : List PiiDetector} (tags : TagMap) :
    ∀ (n : Nat) (v : JsonValue), sizeOf v ≤ n → ∀ (path : String) (f : PiiFinding),
      f ∈ VisitValue mf detectors (some tags) true v path →
      IsTagged (some tags) f.path = false := by
  intro n
  induction n with
  | zero => intro v hv; exfalso; cases v <;> simp at hv
  | succ n ih =>
    intro v hv path f hf
    cases v with
    | str s =>
      simp only [VisitValue, Bool.true_and] at hf
      by_cases htag : IsTagged (some tags) path = true
      · simp [htag] at hf
      · have htag' : IsTagged (some tags) path = false := by
          simpa using htag
        simp only [htag', if_false, Bool.false_eq_true] at hf
        rcases hfd : detectors.find? fun d => mf s d with _ | d
        · simp [firstDetectorFinding, hfd] at hf
        · simp only [firstDetectorFinding, hfd, List.mem_singleton] at hf
          rw [hf]
          exact htag'
    | num k => simp [VisitValue] at hf
    | bool b => simp [VisitValue] at hf
    | null => simp [VisitValue] at hf
    | arr xs =>
      simp only [VisitValue] at hf
      obtain ⟨x, hx, j, hj⟩ := mem_visitItems xs 0 path f hf
      have hlt : sizeOf x < sizeOf (JsonValue.arr xs) := by
        have := List.sizeOf_lt_of_mem hx
        simp only [JsonValue.arr.sizeOf_spec]
        omega
      exact ih x (by omega) _ f hj
    | obj kvs =>
      simp only [VisitValue] at hf
      obtain ⟨kv, hkv, hj⟩ := mem_visitFields kvs path f hf
      have hlt : sizeOf kv.2 < sizeOf (JsonValue.obj kvs) := by
        have h1 := List.sizeOf_lt_of_mem hkv
        obtain ⟨k, v2⟩ := kv
        simp only [JsonValue.obj.sizeOf_spec] at *
        simp at h1 ⊢
        omega
      exact ih kv.2 (by omega) _ f hj

/-- A path governed in the claim's sense (some sensitivity-tagged entry
whose normalized path equals or dot-prefixes the normalized leaf path)
is tagged in the source's sense: the corresponding IsTagged branches are
exactly the normalized comparisons. -/
theorem claimGoverned_imp_isTagged (tags : TagMap) (p : String)
    (h : claimGoverned tags p = true) : IsTagged (some tags) p = true := by
  simp only [claimGoverned, List.any_eq_true, Bool.and_eq_true, Bool.or_eq_true,
    decide_eq_true_eq] at h
  obtain ⟨e, he, hsens, hmatch⟩ := h
  simp only [IsTagged, List.any_eq_true, Bool.and_eq_true]
  refine ⟨e, he, ?_, hsens⟩
  simp only [TagPathMatches, Bool.or_eq_true, decide_eq_true_eq]
  rcases hmatch with h1 | h1
  · exact Or.inl (Or.inr h1.symm)
  · exact Or.inr h1

/-- Claim C10: with requireTags at its default (or set), DetectPii never
reports a finding at a string-leaf path that some sensitivity-tagged
tag-map entry governs, where governing means the entry's path equals the
leaf path or is a dot-prefix of it after array-index normalization — an
ancestor tag governs every leaf beneath it. Holds for every detector
matcher semantics. -/
theorem pii_guard_ancestor_tag_governs (mf : String → PiiDetector → Bool)
    (tags : TagMap) (payload : JsonValue) (cfg : PiiGuardConfig)
    (h : cfg.requireTags = none ∨ cfg.requireTags = some true) :
    ∀ f ∈ DetectPii mf payload (some tags) cfg, claimGoverned tags f.path = false := by
  intro f hf
  have hrt : cfg.requireTags.getD true = true := by rcases h with h | h <;> simp [h]
  simp only [DetectPii, hrt] at hf
  have hnt : IsTagged (some tags) f.path = false :=
    visit_findings_not_tagged tags (sizeOf payload) payload le_rfl "payload" f hf
  by_contra hcg
  have hcg' : claimGoverned tags f.path = true := by
    simpa using hcg
  rw [claimGoverned_imp_isTagged tags f.path hcg'] at hnt
  simp at hnt

/-- Witness for claim C10: at the concrete payload, the finding DetectPii
produces sits at the untagged path payload.other, and that path is not
governed by the tag map. -/
theorem pii_guard_ancestor_tag_governs_witness :
    claimGoverned c10Tags "payload.other" = false :=
  pii_guard_ancestor_tag_governs mfAll c10Tags c10Payload c10Cfg (Or.inl rfl)
    ⟨"payload.other", .email, "pla***il", false⟩ (by decide)

/-- Witness for claim C3 at a concrete email value. -/
theorem redaction_index_normalization_amended_witness :
    IsTagged (some c3Tags) "items.0.email" = true ∧
    ApplyRedaction (c3Data "alice@example.com") (some c3Tags) .strict (some [.pii]) =
      c3Data "alice@example.com" ∧
    jsonGetPath
      (ApplyRedaction (c3Data "alice@example.com") (some [("items.0.email", .one .pii)])
        .strict (some [.pii]))
      ["items", "0", "email"] = some (.str "[REDACTED]") :=
  redaction_index_normalization_amended "alice@example.com"

/-- Witness for claim C9 at a concrete envelope. -/
theorem replay_one_failure_round_trip_witness :
    ReplayTo capturingSink
      (ReadFailures (RecordFailure [] ⟨"delivery-failed", 2, [("env1" : String)], none⟩))
      [] = (["env1"], ⟨1, 0⟩) :=
  replay_one_failure_round_trip "env1"
